import Mathlib

/-!
Verification development for the FinanceCopilot repository.

The repository ships the agent-orchestration core behind a FastAPI backend:
a multi-provider market-data facade (Finnhub primary, Alpha Vantage
secondary), a tool registry, a conversation-memory manager, a retriever,
and an agent executor, together with a Next.js frontend.  The backend
Python sources are not part of the source snapshot (only design documents
and a doc excerpt of StockService.get_quote are); those components are
modelled here from the specification.  The frontend TypeScript sources
(api-client interceptor, getAxiosErrorMessage, stripMarkdown) are embedded
directly from the code.
-/

namespace FinanceCopilot

/-! ## Provider Facade (spec section 4.1) -/

/-- Normalized quote schema of the data model: symbol, current price, change,
change percent, open, high, low, previous close, volume, timestamp.
Monetary values are modelled in integer cents. -/
structure Quote where
  symbol : String
  currentPrice : Int
  change : Int
  changePercent : Int
  openPrice : Int
  high : Int
  low : Int
  previousClose : Int
  volume : Nat
  timestamp : Nat
deriving Repr, DecidableEq

/-- Error taxonomy of the ProviderError kinds in the spec. -/
inductive ErrorKind
  | rateLimited
  | notFound
  | transient
  | exhausted
deriving Repr, DecidableEq

/-- ProviderError: a kind from the taxonomy plus a human-readable message. -/
structure ProviderError where
  kind : ErrorKind
  message : String
deriving Repr, DecidableEq

/-- Raw error raised by one upstream provider: HTTP status plus message. -/
structure RawError where
  status : Nat
  message : String
deriving Repr, DecidableEq

/-- Outcome of one provider attempt: a normalized quote, a structurally
empty result (no quote fields), or a raised transport error. -/
inductive ProviderResult
  | success (q : Quote)
  | emptyResult
  | raised (e : RawError)
deriving Repr, DecidableEq

/-- Modelled from the spec: one upstream provider adapter.  The backend file
app/services/stock_service.py is absent from the source snapshot; the spec
describes each provider as a fetch operation returning the normalized
entity together with a per-provider classification function that recognizes
transient and rate-limit errors (HTTP 429, quota phrasing). -/
structure Provider where
  fetchQuote : String → ProviderResult
  isTransientError : RawError → Bool

/-- Modelled from the spec: StockService.get_quote.  The implementation is
absent from the source snapshot (only a doc excerpt exists); the spec says:
call the primary provider; if it raises a recognized transient or
rate-limit error, call the secondary; if the secondary also fails, raise
EXHAUSTED carrying both underlying error messages; a structurally empty
result is forwarded as NOT_FOUND and is not a fallback trigger. -/
def get_quote (primary secondary : Provider) (symbol : String) :
    Except ProviderError Quote :=
  match primary.fetchQuote symbol with
  | .success q => .ok q
  | .emptyResult => .error ⟨.notFound, "no quote fields for " ++ symbol⟩
  | .raised e =>
    if primary.isTransientError e then
      match secondary.fetchQuote symbol with
      | .success q => .ok q
      | .emptyResult => .error ⟨.notFound, "no quote fields for " ++ symbol⟩
      | .raised e2 => .error ⟨.exhausted, e.message ++ "; " ++ e2.message⟩
    else
      .error ⟨.transient, e.message⟩

/-- Primary provider that always answers HTTP 429, used as a concrete
failover scenario. -/
def finnhub429 : Provider where
  fetchQuote := fun _ => .raised ⟨429, "HTTP 429 Too Many Requests"⟩
  isTransientError := fun e => e.status == 429 || e.status == 503

/-- Concrete normalized quote used in the failover scenario (price 277.72
represented in cents). -/
def aaplQuote : Quote :=
  ⟨"AAPL", 27772, 120, 43, 27650, 27800, 27600, 27652, 1000000, 1700000000⟩

/-- Secondary provider that succeeds with the concrete AAPL quote. -/
def alphaVantageOk : Provider where
  fetchQuote := fun _ => .success aaplQuote
  isTransientError := fun _ => false

/-- Secondary provider that always fails with a rate-limit message. -/
def alphaVantageDown : Provider where
  fetchQuote := fun _ => .raised ⟨200, "rate limit exceeded for Alpha Vantage"⟩
  isTransientError := fun _ => false

/-- Primary provider that answers with a structurally empty result. -/
def finnhubEmpty : Provider where
  fetchQuote := fun _ => .emptyResult
  isTransientError := fun e => e.status == 429

/-- C1: for every symbol for which the primary provider fails with a
recognized transient or rate-limit error and the secondary provider
succeeds, get_quote returns the secondary provider normalized quote and
does not produce any error. -/
theorem get_quote_fallback_on_transient (primary secondary : Provider)
    (symbol : String) (e : RawError) (q : Quote)
    (hp : primary.fetchQuote symbol = .raised e)
    (ht : primary.isTransientError e = true)
    (hs : secondary.fetchQuote symbol = .success q) :
    get_quote primary secondary symbol = .ok q := by
  simp [get_quote, hp, ht, hs]

/-- Witness for C1: the failover scenario of the spec, quote of AAPL with
the primary provider returning HTTP 429 and the secondary succeeding with
price 277.72. -/
theorem get_quote_fallback_on_transient_witness :
    get_quote finnhub429 alphaVantageOk "AAPL" = .ok aaplQuote :=
  get_quote_fallback_on_transient finnhub429 alphaVantageOk "AAPL"
    ⟨429, "HTTP 429 Too Many Requests"⟩ aaplQuote rfl rfl rfl

/-- C2: for every symbol for which the primary provider fails with a
recognized transient or rate-limit error and the secondary provider fails
too, get_quote produces an EXHAUSTED error carrying both underlying error
messages, and never returns any (hence any partially populated) quote. -/
theorem get_quote_exhausted_on_double_failure (primary secondary : Provider)
    (symbol : String) (e e2 : RawError)
    (hp : primary.fetchQuote symbol = .raised e)
    (ht : primary.isTransientError e = true)
    (hs : secondary.fetchQuote symbol = .raised e2) :
    get_quote primary secondary symbol =
      .error ⟨.exhausted, e.message ++ "; " ++ e2.message⟩ ∧
    ∀ q : Quote, get_quote primary secondary symbol ≠ .ok q := by
  refine ⟨by simp [get_quote, hp, ht, hs], ?_⟩
  intro q
  simp [get_quote, hp, ht, hs]

/-- Witness for C2: both providers fail concretely; the facade reports
EXHAUSTED with both messages and returns no quote. -/
theorem get_quote_exhausted_on_double_failure_witness :
    get_quote finnhub429 alphaVantageDown "AAPL" =
      .error ⟨.exhausted,
        "HTTP 429 Too Many Requests; rate limit exceeded for Alpha Vantage"⟩ ∧
    ∀ q : Quote, get_quote finnhub429 alphaVantageDown "AAPL" ≠ .ok q :=
  get_quote_exhausted_on_double_failure finnhub429 alphaVantageDown "AAPL"
    ⟨429, "HTTP 429 Too Many Requests"⟩
    ⟨200, "rate limit exceeded for Alpha Vantage"⟩ rfl rfl rfl

/-- C5: for every symbol for which the primary provider responds with a
structurally empty result, get_quote fails with NOT_FOUND, and it does so
for every possible secondary provider: the empty result is not a fallback
trigger. -/
theorem get_quote_not_found_on_empty (primary : Provider) (symbol : String)
    (hp : primary.fetchQuote symbol = .emptyResult) :
    ∀ secondary : Provider,
      get_quote primary secondary symbol =
        .error ⟨.notFound, "no quote fields for " ++ symbol⟩ := by
  intro secondary
  simp [get_quote, hp]

/-- Witness for C5: the empty-result primary yields NOT_FOUND even when the
secondary provider would have succeeded. -/
theorem get_quote_not_found_on_empty_witness :
    get_quote finnhubEmpty alphaVantageOk "AAPL" =
      .error ⟨.notFound, "no quote fields for AAPL"⟩ :=
  get_quote_not_found_on_empty finnhubEmpty "AAPL" rfl alphaVantageOk

/-! ## Tool Registry (spec section 4.2) -/

/-- JSON values, the shape of every tool invocation payload and output. -/
inductive Json
  | str (s : String)
  | num (n : Int)
  | boolean (b : Bool)
  | null
  | arr (xs : List Json)
  | obj (fields : List (String × Json))
deriving Repr

/-- Kind rendered into the error field of a structured tool error payload. -/
def kindName : ErrorKind → String
  | .rateLimited => "RATE_LIMITED"
  | .notFound => "NOT_FOUND"
  | .transient => "TRANSIENT"
  | .exhausted => "EXHAUSTED"

/-- Closed set of tools of the registry, one variant per tool. -/
inductive Tool
  | searchStockSymbols
  | getStockQuote
  | getStockMetrics
  | getStockNews
  | getStockCandles
  | getWatchlist
  | addToWatchlist
  | removeFromWatchlist
  | compareStocks
deriving Repr, DecidableEq

/-- Structured error payload of a tool: an object with an error field
holding the kind and a message field holding the text. -/
def toolErrorPayload (e : ProviderError) : Json :=
  .obj [("error", .str (kindName e.kind)), ("message", .str e.message)]

/-- Modelled from the spec: the Tool Registry boundary.  The backend file
app/services/tool_registry.py is absent from the source snapshot; the spec
says every tool catches Provider Facade errors and returns a structured
error payload rather than raising.  A tool run is therefore total: it maps
the facade outcome for the given tool and input to a plain JSON value. -/
def runTool (facade : Tool → Json → Except ProviderError Json)
    (t : Tool) (input : Json) : Json :=
  match facade t input with
  | .ok payload => payload
  | .error e => toolErrorPayload e

/-- C6: for every tool and every input on which the underlying facade
fails, the tool run returns the structured payload with an error field
holding the kind and a message field holding the text, as a plain JSON
value rather than a propagated exception. -/
theorem runTool_catches_provider_error
    (facade : Tool → Json → Except ProviderError Json)
    (t : Tool) (input : Json) (e : ProviderError)
    (hf : facade t input = .error e) :
    runTool facade t input =
      .obj [("error", .str (kindName e.kind)), ("message", .str e.message)] := by
  simp [runTool, hf, toolErrorPayload]

/-- Facade that fails every call with an exhausted error, used to witness
the registry boundary. -/
def failingFacade : Tool → Json → Except ProviderError Json :=
  fun _ _ => .error ⟨.exhausted, "both providers failed"⟩

/-- Witness for C6: the quote tool over the failing facade returns the
structured error object. -/
theorem runTool_catches_provider_error_witness :
    runTool failingFacade Tool.getStockQuote (.str "AAPL") =
      .obj [("error", .str "EXHAUSTED"),
            ("message", .str "both providers failed")] :=
  runTool_catches_provider_error failingFacade Tool.getStockQuote
    (.str "AAPL") ⟨.exhausted, "both providers failed"⟩ rfl

/-! ## Agent Executor (spec section 4.5) -/

/-- Observation recorded after one tool execution. -/
structure Observation where
  toolName : String
  output : Json
deriving Repr

/-- Action selected by the reasoning call at SELECT_ACTION: either a tool
invocation request or a terminal answer. -/
inductive AgentAction
  | callTool (name : String) (args : Json)
  | finalAnswer (text : String)
deriving Repr

/-- Outcome of one executor run: the final answer text and how many
SELECT_ACTION, EXECUTE_TOOL, OBSERVE iterations were performed. -/
structure AgentOutcome where
  answer : String
  toolCalls : Nat
deriving Repr

/-- Plain rendering of one observation used by the forced finalization. -/
def renderObservation (o : Observation) : String :=
  o.toolName ++ ": " ++ (toString (repr o.output))

/-- Modelled from the spec: the forced FINALIZE produces an answer from
whatever observations have been gathered so far. -/
def forcedFinalize (obs : List Observation) : String :=
  "Answer based on gathered observations: " ++
    String.intercalate "; " (obs.map renderObservation)

/-- Modelled from the spec: the bounded reasoning loop of the Agent
Executor.  The backend agent implementation is absent from the source
snapshot; the spec describes the state machine START, then repeated
SELECT_ACTION, EXECUTE_TOOL, OBSERVE, bounded by a maximum iteration
count, then FINALIZE; reaching the bound forces a FINALIZE from the
observations gathered so far.  The policy models the reasoning call; the
executeTool collaborator models the Tool Registry. -/
def agentLoop (policy : List Observation → AgentAction)
    (executeTool : String → Json → Observation) :
    Nat → List Observation → Nat → AgentOutcome
  | 0, obs, used => ⟨forcedFinalize obs, used⟩
  | fuel + 1, obs, used =>
    match policy obs with
    | .finalAnswer text => ⟨text, used⟩
    | .callTool name args =>
      agentLoop policy executeTool fuel (obs ++ [executeTool name args]) (used + 1)

/-- Modelled from the spec: run one executor turn with the configured
maximum iteration count (default 5). -/
def runAgent (maxIterations : Nat) (policy : List Observation → AgentAction)
    (executeTool : String → Json → Observation) : AgentOutcome :=
  agentLoop policy executeTool maxIterations [] 0

/-- Tool-call count of the loop never exceeds the remaining fuel plus the
count already used. -/
theorem agentLoop_toolCalls_le (policy : List Observation → AgentAction)
    (executeTool : String → Json → Observation) :
    ∀ (fuel : Nat) (obs : List Observation) (used : Nat),
      (agentLoop policy executeTool fuel obs used).toolCalls ≤ used + fuel := by
  intro fuel
  induction fuel with
  | zero => intro obs used; simp [agentLoop]
  | succ n ih =>
    intro obs used
    cases hp : policy obs with
    | finalAnswer text =>
      simp only [agentLoop, hp]
      exact Nat.le_add_right used (n + 1)
    | callTool name args =>
      have h := ih (obs ++ [executeTool name args]) (used + 1)
      simp only [agentLoop, hp]
      omega

/-- With an always-call-a-tool policy the loop exhausts its fuel and ends
in the forced finalization of the gathered observations. -/
theorem agentLoop_forced_finalize (policy : List Observation → AgentAction)
    (executeTool : String → Json → Observation)
    (halways : ∀ obs, ∃ name args, policy obs = .callTool name args) :
    ∀ (fuel : Nat) (obs : List Observation) (used : Nat),
      ∃ finalObs : List Observation,
        agentLoop policy executeTool fuel obs used =
          ⟨forcedFinalize finalObs, used + fuel⟩ := by
  intro fuel
  induction fuel with
  | zero => intro obs used; exact ⟨obs, by simp [agentLoop]⟩
  | succ n ih =>
    intro obs used
    obtain ⟨name, args, hcall⟩ := halways obs
    obtain ⟨finalObs, hrec⟩ := ih (obs ++ [executeTool name args]) (used + 1)
    refine ⟨finalObs, ?_⟩
    simp only [agentLoop, hcall, hrec]
    congr 1
    omega

/-- Forced finalization never yields the empty string: the answer carries a
fixed nonempty preamble. -/
theorem forcedFinalize_ne_empty (obs : List Observation) :
    forcedFinalize obs ≠ "" := by
  intro h
  have hlen := congrArg String.length h
  simp [forcedFinalize, String.length_append] at hlen
  exact absurd hlen.1 (by decide)

/-- C3: for every configured maximum iteration count, every reasoning
policy and every tool collaborator, the executor performs at most the
configured number of tool iterations; and whenever the policy requests a
tool call at every step, the executor still terminates with the forced
finalization, performing exactly the bound, and the produced answer is
nonempty. -/
theorem agent_executor_bounded (maxIterations : Nat)
    (policy : List Observation → AgentAction)
    (executeTool : String → Json → Observation) :
    (runAgent maxIterations policy executeTool).toolCalls ≤ maxIterations ∧
    ((∀ obs, ∃ name args, policy obs = .callTool name args) →
      (runAgent maxIterations policy executeTool).toolCalls = maxIterations ∧
      (runAgent maxIterations policy executeTool).answer ≠ "") := by
  constructor
  · have := agentLoop_toolCalls_le policy executeTool maxIterations [] 0
    simpa [runAgent] using this
  · intro halways
    obtain ⟨finalObs, hrun⟩ :=
      agentLoop_forced_finalize policy executeTool halways maxIterations [] 0
    unfold runAgent
    rw [hrun]
    exact ⟨by simp, forcedFinalize_ne_empty finalObs⟩

/-- Policy that always requests another tool call, the adversarial case of
the termination claim. -/
def alwaysCallPolicy : List Observation → AgentAction :=
  fun _ => .callTool "get_stock_quote" (.str "AAPL")

/-- Tool collaborator that always reports another observation. -/
def echoExecuteTool : String → Json → Observation :=
  fun name args => ⟨name, args⟩

/-- Witness for C3: with the default bound of five iterations and a policy
that always wants another tool call, the executor stops at exactly five
tool calls and produces a nonempty answer. -/
theorem agent_executor_bounded_witness :
    (runAgent 5 alwaysCallPolicy echoExecuteTool).toolCalls ≤ 5 ∧
    (runAgent 5 alwaysCallPolicy echoExecuteTool).toolCalls = 5 ∧
    (runAgent 5 alwaysCallPolicy echoExecuteTool).answer ≠ "" := by
  have h := agent_executor_bounded 5 alwaysCallPolicy echoExecuteTool
  exact ⟨h.1, h.2 (fun obs => ⟨"get_stock_quote", .str "AAPL", rfl⟩)⟩

/-! ## Memory Manager (spec section 4.4) -/

/-- One raw conversation message: role (user or assistant) and content. -/
structure MemMsg where
  role : String
  content : String
deriving Repr, DecidableEq

/-- Memory configuration: token budget (default about 1000) and the
minimum number of raw messages retained verbatim (default 10). -/
structure MemoryConfig where
  budget : Nat
  retainMin : Nat
deriving Repr, DecidableEq

/-- Default memory configuration of the spec. -/
def defaultMemoryConfig : MemoryConfig := ⟨1000, 10⟩

/-- Injected collaborators of the memory manager: the token estimator and
the external summarization call. -/
structure MemoryEnv where
  est : String → Nat
  summarize : String → List MemMsg → String

/-- Per-session memory state: the rolling summary and the raw tail. -/
structure MemoryState where
  summary : String
  raw : List MemMsg
deriving Repr, DecidableEq

/-- Estimated token count of a list of raw messages. -/
def rawTokens (env : MemoryEnv) (raw : List MemMsg) : Nat :=
  (raw.map (fun m => env.est m.content)).sum

/-- Estimated token count of summary plus raw tail of a state. -/
def totalTokens (env : MemoryEnv) (st : MemoryState) : Nat :=
  env.est st.summary + rawTokens env st.raw

/-- Modelled from the spec: append of the Memory Manager.  The backend
memory implementation is absent from the source snapshot; the spec says:
append the message to the raw list; if the estimated token count of
summary plus raw list exceeds the budget and the raw list exceeds the
minimum retain count, collapse the older excess messages into an updated
summary via the summarization collaborator and truncate the raw list to
the retained tail. -/
def memAppend (cfg : MemoryConfig) (env : MemoryEnv) (st : MemoryState)
    (role content : String) : MemoryState :=
  let raw1 := st.raw ++ [⟨role, content⟩]
  if cfg.budget < env.est st.summary + rawTokens env raw1 ∧
      cfg.retainMin < raw1.length then
    let cut := raw1.length - cfg.retainMin
    ⟨env.summarize st.summary (raw1.take cut), raw1.drop cut⟩
  else
    ⟨st.summary, raw1⟩

/-- Modelled from the spec: reading the memory view never writes; it is the
pair of the summary and the raw tail of the current state. -/
def memView (st : MemoryState) : String × List MemMsg :=
  (st.summary, st.raw)

/-- C4: after every single append, eagerly inside the append itself, the
estimated tokens of summary plus raw tail are within the budget, or else
the raw tail is already at or below the retained minimum, so that any
overflow beyond the budget is exactly the allowance of the minimum
retained tail (plus its summary).  The bound holds for every prior state,
so it holds after each append of any finite sequence. -/
theorem memory_budget_invariant (cfg : MemoryConfig) (env : MemoryEnv)
    (st : MemoryState) (role content : String) :
    totalTokens env (memAppend cfg env st role content) ≤ cfg.budget ∨
    (memAppend cfg env st role content).raw.length ≤ cfg.retainMin := by
  unfold memAppend
  dsimp only
  split
  · rename_i h
    right
    simp only [List.length_drop]
    omega
  · rename_i h
    rw [not_and_or] at h
    simp only [totalTokens, not_lt] at h ⊢
    omega

/-! ## Retriever (spec section 4.3) -/

/-- Document of the RAG knowledge base: id, owner (none means public),
title, source, raw text, embedding vector, creation time. -/
structure Document where
  id : Nat
  owner : Option Nat
  title : String
  source : String
  text : String
  embedding : List Int
  createdAt : Nat
deriving Repr, DecidableEq

/-- Inner-product similarity between two embedding vectors. -/
def innerProduct (v w : List Int) : Int :=
  (List.zipWith (· * ·) v w).sum

/-- Visibility filter of the retriever: a document is searchable for an
owner when it is public or owned by that owner. -/
def visibleTo (ownerId : Nat) (d : Document) : Bool :=
  d.owner.isNone || d.owner == some ownerId

/-- Ranking order on scored documents: higher score first, ties broken by
most recent creation time. -/
def rankedAbove (a b : Int × Document) : Prop :=
  b.1 < a.1 ∨ (a.1 = b.1 ∧ b.2.createdAt ≤ a.2.createdAt)

instance : DecidableRel rankedAbove := fun a b =>
  inferInstanceAs (Decidable (b.1 < a.1 ∨ (a.1 = b.1 ∧ b.2.createdAt ≤ a.2.createdAt)))

instance : IsTotal (Int × Document) rankedAbove := by
  constructor
  intro a b
  unfold rankedAbove
  rcases lt_trichotomy a.1 b.1 with h | h | h
  · right; left; exact h
  · rcases Nat.le_total b.2.createdAt a.2.createdAt with h2 | h2
    · left; right; exact ⟨h, h2⟩
    · right; right; exact ⟨h.symm, h2⟩
  · left; left; exact h

instance : IsTrans (Int × Document) rankedAbove := by
  constructor
  intro a b c hab hbc
  unfold rankedAbove at *
  rcases hab with h1 | ⟨h1, h1t⟩ <;> rcases hbc with h2 | ⟨h2, h2t⟩
  · left; omega
  · left; omega
  · left; omega
  · right; refine ⟨by omega, by omega⟩

/-- Modelled from the spec: Retriever search.  The backend retriever
implementation is absent from the source snapshot; the spec says search
computes similarity over the index restricted to documents owned by the
caller or flagged public, ranks descending by score with ties broken by
most recent creation time, and returns at most k scored documents. -/
def ragSearch (index : List Document) (queryVec : List Int)
    (ownerId k : Nat) : List (Document × Int) :=
  let visible := index.filter (visibleTo ownerId)
  let scored := visible.map (fun d => (innerProduct queryVec d.embedding, d))
  ((List.insertionSort rankedAbove scored).take k).map (fun x => (x.2, x.1))

/-- Ranking order on the returned pairs of document and score. -/
def resultRankedAbove (a b : Document × Int) : Prop :=
  b.2 < a.2 ∨ (a.2 = b.2 ∧ b.1.createdAt ≤ a.1.createdAt)

/-- C7: for every index, query vector, owner and k, search returns at most
k documents, every returned document is public or owned by the caller, and
the results are sorted descending by score with ties broken by most recent
creation time. -/
theorem ragSearch_spec (index : List Document) (queryVec : List Int)
    (ownerId k : Nat) :
    (ragSearch index queryVec ownerId k).length ≤ k ∧
    (∀ p ∈ ragSearch index queryVec ownerId k,
      p.1.owner = none ∨ p.1.owner = some ownerId) ∧
    List.Sorted resultRankedAbove (ragSearch index queryVec ownerId k) := by
  refine ⟨?_, ?_, ?_⟩
  · simp only [ragSearch, List.length_map, List.length_take]
    exact min_le_left _ _
  · intro p hp
    simp only [ragSearch, List.mem_map] at hp
    obtain ⟨x, hx, hxp⟩ := hp
    have hx2 : x ∈ List.insertionSort rankedAbove
        ((index.filter (visibleTo ownerId)).map
          (fun d => (innerProduct queryVec d.embedding, d))) :=
      List.mem_of_mem_take hx
    rw [List.mem_insertionSort] at hx2
    rw [List.mem_map] at hx2
    obtain ⟨d, hd, hdx⟩ := hx2
    have hvis := List.of_mem_filter hd
    subst hdx
    subst hxp
    simp only [visibleTo, Bool.or_eq_true, Option.isNone_iff_eq_none,
      beq_iff_eq] at hvis
    rcases hvis with h | h
    · left; exact h
    · right; exact h
  · have hsorted : List.Sorted rankedAbove
        (List.insertionSort rankedAbove
          ((index.filter (visibleTo ownerId)).map
            (fun d => (innerProduct queryVec d.embedding, d)))) :=
      List.sorted_insertionSort rankedAbove _
    have htake : List.Sorted rankedAbove
        ((List.insertionSort rankedAbove
          ((index.filter (visibleTo ownerId)).map
            (fun d => (innerProduct queryVec d.embedding, d)))).take k) :=
      List.Pairwise.sublist (List.take_sublist k _) hsorted
    exact htake.map _ (fun a b hab => hab)

/-! ## Frontend api-client response interceptor
(src/FinanceCopilot-Frontend/src/lib/api-client.ts) -/

/-- HTTP response attached to an axios error: status code (body not needed
by the interceptor). -/
structure HttpResponse where
  status : Nat
deriving Repr, DecidableEq

/-- Axios error as seen by the response interceptor: an optional response
(absent on network failures). -/
structure AxiosError where
  response : Option HttpResponse
deriving Repr, DecidableEq

/-- Browser localStorage modelled as an association list keyed by strings. -/
def LocalStorage := List (String × String)

/-- localStorage.removeItem: drops every entry under the given key. -/
def removeItem (key : String) (st : LocalStorage) : LocalStorage :=
  st.filter (fun p => p.1 ≠ key)

/-- localStorage.getItem: the first value stored under the key, if any. -/
def getItem (key : String) (st : LocalStorage) : Option String :=
  (st.find? (fun p => p.1 == key)).map (fun p => p.2)

/-- Browser state seen by the interceptor: the storage, the current
location href, and whether a window object exists. -/
structure BrowserState where
  storage : LocalStorage
  locationHref : String
  hasWindow : Bool

/-- Response error interceptor of apiClient, embedded from api-client.ts:
on a 401 response it removes access_token and user from localStorage and,
when a window exists, sets location.href to /login; in every case it
returns the rejected promise carrying the original error. -/
def onResponseError (err : AxiosError) (b : BrowserState) :
    BrowserState × AxiosError :=
  if (err.response.map HttpResponse.status) = some 401 then
    let storage1 := removeItem "user" (removeItem "access_token" b.storage)
    let href1 := if b.hasWindow then "/login" else b.locationHref
    (⟨storage1, href1, b.hasWindow⟩, err)
  else
    (b, err)

/-- Removing a key makes lookups of that key come back empty. -/
theorem getItem_removeItem_self (k : String) (st : LocalStorage) :
    getItem k (removeItem k st) = none := by
  have hfind : (removeItem k st).find? (fun p => p.1 == k) = none := by
    rw [List.find?_eq_none]
    intro x hx
    have hmem := (List.mem_filter.mp hx).2
    simp only [ne_eq, decide_not, Bool.not_eq_eq_eq_not, Bool.not_true,
      decide_eq_false_iff_not] at hmem
    simpa using hmem
  simp [getItem, hfind]

/-- Removing a further key preserves the absence of an already absent key. -/
theorem getItem_removeItem_of_none (k k2 : String) (st : LocalStorage)
    (h : getItem k st = none) : getItem k (removeItem k2 st) = none := by
  have hfind : st.find? (fun p => p.1 == k) = none := by
    cases hf : st.find? (fun p => p.1 == k) with
    | none => rfl
    | some v => rw [getItem, hf] at h; simp at h
  have hfind2 : (removeItem k2 st).find? (fun p => p.1 == k) = none := by
    rw [List.find?_eq_none] at hfind ⊢
    intro x hx
    exact hfind x (List.mem_filter.mp hx).1
  simp [getItem, hfind2]

/-- C8: a 401 response makes the interceptor clear both access_token and
user from localStorage and redirect the browser to /login while still
rejecting with the original error; any other outcome (different status or
no response at all) leaves the browser state untouched and also rejects
with the original error. -/
theorem interceptor_handles_401 (err : AxiosError) (b : BrowserState) :
    ((err.response.map HttpResponse.status) = some 401 → b.hasWindow = true →
      getItem "access_token" (onResponseError err b).1.storage = none ∧
      getItem "user" (onResponseError err b).1.storage = none ∧
      (onResponseError err b).1.locationHref = "/login" ∧
      (onResponseError err b).2 = err) ∧
    ((err.response.map HttpResponse.status) ≠ some 401 →
      (onResponseError err b).1 = b ∧ (onResponseError err b).2 = err) := by
  constructor
  · intro h401 hwin
    unfold onResponseError
    rw [if_pos h401]
    refine ⟨?_, ?_, ?_, rfl⟩
    · exact getItem_removeItem_of_none _ _ _ (getItem_removeItem_self _ _)
    · exact getItem_removeItem_self _ _
    · simp [hwin]
  · intro hne
    unfold onResponseError
    rw [if_neg hne]
    exact ⟨rfl, rfl⟩

/-- Witness for C8: a concrete 401 error against a browser holding both
keys, and a concrete 500 error that leaves the same browser untouched. -/
theorem interceptor_handles_401_witness :
    (getItem "access_token"
        (onResponseError ⟨some ⟨401⟩⟩
          ⟨[("access_token", "tok"), ("user", "yash")], "/chat", true⟩).1.storage
        = none ∧
      getItem "user"
        (onResponseError ⟨some ⟨401⟩⟩
          ⟨[("access_token", "tok"), ("user", "yash")], "/chat", true⟩).1.storage
        = none ∧
      (onResponseError ⟨some ⟨401⟩⟩
          ⟨[("access_token", "tok"), ("user", "yash")], "/chat", true⟩).1.locationHref
        = "/login" ∧
      (onResponseError ⟨some ⟨401⟩⟩
          ⟨[("access_token", "tok"), ("user", "yash")], "/chat", true⟩).2
        = ⟨some ⟨401⟩⟩) ∧
    ((onResponseError ⟨some ⟨500⟩⟩
        ⟨[("access_token", "tok"), ("user", "yash")], "/chat", true⟩).1
      = ⟨[("access_token", "tok"), ("user", "yash")], "/chat", true⟩ ∧
      (onResponseError ⟨some ⟨500⟩⟩
        ⟨[("access_token", "tok"), ("user", "yash")], "/chat", true⟩).2
      = ⟨some ⟨500⟩⟩) :=
  ⟨(interceptor_handles_401 ⟨some ⟨401⟩⟩
      ⟨[("access_token", "tok"), ("user", "yash")], "/chat", true⟩).1 rfl rfl,
    (interceptor_handles_401 ⟨some ⟨500⟩⟩
      ⟨[("access_token", "tok"), ("user", "yash")], "/chat", true⟩).2 (by decide)⟩

/-! ## Frontend getAxiosErrorMessage (src/unnamed/part_012, lib/utils) -/

/-- Response body as typed by getAxiosErrorMessage: either a plain string
or an object with optional detail, message and content fields. -/
inductive ResponseData
  | str (s : String)
  | obj (detail message content : Option String)
deriving Repr, DecidableEq

/-- Axios error as consumed by getAxiosErrorMessage: the optional response
data (absent when there is no response or no body) and the error message
property. -/
structure AxiosErrorMsg where
  responseData : Option ResponseData
  errMessage : String
deriving Repr, DecidableEq

/-- JavaScript truthiness of an optional string: undefined and the empty
string are falsy. -/
def truthy : Option String → Bool
  | none => false
  | some s => s ≠ ""

/-- Nullish coalescing of two optional strings: the left one unless it is
undefined. -/
def coalesce (a b : Option String) : Option String :=
  match a with
  | some s => some s
  | none => b

/-- getAxiosErrorMessage, embedded from the frontend utils: if the response
data is a string, return it; if it is an object and one of detail, message,
content is truthy, return detail, else message, else content, else the
fallback, by nullish coalescing; otherwise return the error message when
truthy, else the fallback. -/
def getAxiosErrorMessage (err : AxiosErrorMsg) (fallback : String) : String :=
  match err.responseData with
  | some (.str s) => s
  | some (.obj detail message content) =>
    if truthy detail || truthy message || truthy content then
      (coalesce detail (coalesce message content)).getD fallback
    else if err.errMessage ≠ "" then err.errMessage else fallback
  | none => if err.errMessage ≠ "" then err.errMessage else fallback

/-- Statement of claim C9 at one input: string data is returned as is; an
object with at least one of detail, message or content set returns the
first of these that is set; otherwise the error message when nonempty and
the fallback when the error message is empty. -/
def claimNineAt (err : AxiosErrorMsg) (fallback : String) : Prop :=
  (∀ s, err.responseData = some (.str s) →
    getAxiosErrorMessage err fallback = s) ∧
  (∀ detail message content,
    err.responseData = some (.obj detail message content) →
    (detail.isSome ∨ message.isSome ∨ content.isSome) →
    getAxiosErrorMessage err fallback =
      (coalesce detail (coalesce message content)).getD fallback) ∧
  ((err.responseData = none ∨
      err.responseData = some (.obj none none none)) →
    getAxiosErrorMessage err fallback =
      (if err.errMessage ≠ "" then err.errMessage else fallback))

/-- Counterexample to C9: response data is the object with detail set to
the empty string and no other field, so at least one field is set and the
first set field is the empty string; the code nevertheless falls through to
the error message, because the truthiness test rejects the empty string. -/
theorem getAxiosErrorMessage_claim_false :
    ¬ claimNineAt ⟨some (.obj (some "") none none), "boom"⟩ "fb" := by
  intro h
  have hobj := h.2.1 (some "") none none rfl (Or.inl rfl)
  simp [getAxiosErrorMessage, truthy, coalesce] at hobj

/-- C9 amended: getAxiosErrorMessage always returns a string and never
throws; if the response data is a string it returns that string; if it is
an object with at least one of detail, message or content set to a
nonempty string, it returns the first of the three that is set at all,
which may itself be the empty string; otherwise it returns the error
message when nonempty and the fallback when the error message is empty. -/
theorem getAxiosErrorMessage_amended (err : AxiosErrorMsg) (fallback : String) :
    (∀ s, err.responseData = some (.str s) →
      getAxiosErrorMessage err fallback = s) ∧
    (∀ detail message content,
      err.responseData = some (.obj detail message content) →
      (truthy detail || truthy message || truthy content) = true →
      getAxiosErrorMessage err fallback =
        (coalesce detail (coalesce message content)).getD fallback) ∧
    (∀ detail message content,
      err.responseData = some (.obj detail message content) →
      (truthy detail || truthy message || truthy content) = false →
      getAxiosErrorMessage err fallback =
        (if err.errMessage ≠ "" then err.errMessage else fallback)) ∧
    (err.responseData = none →
      getAxiosErrorMessage err fallback =
        (if err.errMessage ≠ "" then err.errMessage else fallback)) := by
  refine ⟨?_, ?_, ?_, ?_⟩
  · intro s hs
    simp [getAxiosErrorMessage, hs]
  · intro detail message content hd htr
    simp [getAxiosErrorMessage, hd, htr]
  · intro detail message content hd htr
    simp [getAxiosErrorMessage, hd, htr]
  · intro hn
    simp [getAxiosErrorMessage, hn]

/-- Witness for the amended C9: concrete evaluations in all four branches,
including the empty-detail object that defeats the original claim. -/
theorem getAxiosErrorMessage_amended_witness :
    getAxiosErrorMessage ⟨some (.str "bad request"), "boom"⟩ "fb"
      = "bad request" ∧
    getAxiosErrorMessage ⟨some (.obj (some "") (some "hi") none), "boom"⟩ "fb"
      = "" ∧
    getAxiosErrorMessage ⟨some (.obj (some "") none none), "boom"⟩ "fb"
      = "boom" ∧
    getAxiosErrorMessage ⟨none, ""⟩ "fb" = "fb" := by
  refine ⟨?_, ?_, ?_, ?_⟩
  · exact (getAxiosErrorMessage_amended ⟨some (.str "bad request"), "boom"⟩
      "fb").1 "bad request" rfl
  · have h := ((getAxiosErrorMessage_amended
      ⟨some (.obj (some "") (some "hi") none), "boom"⟩ "fb").2.1
      (some "") (some "hi") none rfl (by decide))
    rw [h]; rfl
  · have h := ((getAxiosErrorMessage_amended
      ⟨some (.obj (some "") none none), "boom"⟩ "fb").2.2.1
      (some "") none none rfl (by decide))
    rw [h]; rfl
  · have h := ((getAxiosErrorMessage_amended ⟨none, ""⟩ "fb").2.2.2 rfl)
    rw [h]; rfl

/-! ## Frontend stripMarkdown (src/unnamed/part_009, chat component)

The source is a chain of global regex replacements ending in trim; each
pass below is the scanning semantics of one regex of the chain, over the
character list of the string. -/

/-- JavaScript whitespace, the set matched by the regex class of
whitespace and removed by trim. -/
def isJsSpace (c : Char) : Bool :=
  c == ' ' || c == '\t' || c == '\n' || c == '\r' ||
  c == '\x0B' || c == '\x0C' ||
  c == '\u00A0' || c == '\u1680' ||
  ('\u2000' ≤ c && c ≤ '\u200A') ||
  c == '\u2028' || c == '\u2029' || c == '\u202F' || c == '\u205F' ||
  c == '\u3000' || c == '\uFEFF'

/-- Lazy search for the closing occurrence of an inline delimiter: the
shortest run of non-newline characters followed by the delimiter, returning
the run and the remainder after the close. -/
def findInlineClose (d : List Char) : List Char → Option (List Char × List Char)
  | [] => none
  | c :: cs =>
    if d.isPrefixOf (c :: cs) then some ([], (c :: cs).drop d.length)
    else if c == '\n' then none
    else
      match findInlineClose d cs with
      | some (inner, rest) => some (c :: inner, rest)
      | none => none

/-- Global replacement of one inline span pattern: an opening delimiter, a
lazy non-newline body kept as the replacement, and a closing delimiter.
This is the scanning semantics of the bold, italic and inline-code
replacements of stripMarkdown. -/
def replaceInline (d : List Char) : Nat → List Char → List Char
  | 0, s => s
  | _, [] => []
  | fuel + 1, c :: cs =>
    if d.isPrefixOf (c :: cs) then
      match findInlineClose d ((c :: cs).drop d.length) with
      | some (inner, rest) => inner ++ replaceInline d fuel rest
      | none => c :: replaceInline d fuel cs
    else c :: replaceInline d fuel cs

/-- Lazy search for a closing code fence, across newlines, returning the
remainder after the close. -/
def findFenceClose : List Char → Option (List Char)
  | [] => none
  | c :: cs =>
    if ['`', '`', '`'].isPrefixOf (c :: cs) then some ((c :: cs).drop 3)
    else findFenceClose cs

/-- Global removal of fenced code blocks: a triple-backtick fence, a lazy
body of arbitrary characters, and a closing fence, replaced by nothing. -/
def replaceFences : Nat → List Char → List Char
  | 0, s => s
  | _, [] => []
  | fuel + 1, c :: cs =>
    if ['`', '`', '`'].isPrefixOf (c :: cs) then
      match findFenceClose ((c :: cs).drop 3) with
      | some rest => replaceFences fuel rest
      | none => c :: replaceFences fuel cs
    else c :: replaceFences fuel cs

/-- Global replacement of headers: one to six hash marks, then greedy
whitespace, then the rest of the line, replaced by the rest of the line. -/
def replaceHeaders : Nat → List Char → List Char
  | 0, s => s
  | _, [] => []
  | fuel + 1, c :: cs =>
    if c == '#' then
      let hashes := (c :: cs).takeWhile (· == '#')
      let n := min hashes.length 6
      let afterHash := (c :: cs).drop n
      let afterSpace := afterHash.dropWhile isJsSpace
      let line := afterSpace.takeWhile (· != '\n')
      line ++ replaceHeaders fuel (afterSpace.drop line.length)
    else c :: replaceHeaders fuel cs

/-- Global replacement of links: a bracketed nonempty label, then a
parenthesized nonempty target, replaced by the label. -/
def replaceLinks : Nat → List Char → List Char
  | 0, s => s
  | _, [] => []
  | fuel + 1, c :: cs =>
    if c == '[' then
      let label := cs.takeWhile (· != ']')
      match label.isEmpty, cs.drop label.length with
      | false, ']' :: afterBr =>
        match afterBr with
        | '(' :: afterPar =>
          let target := afterPar.takeWhile (· != ')')
          match target.isEmpty, afterPar.drop target.length with
          | false, ')' :: tail => label ++ replaceLinks fuel tail
          | _, _ => c :: replaceLinks fuel cs
        | _ => c :: replaceLinks fuel cs
      | _, _ => c :: replaceLinks fuel cs
    else c :: replaceLinks fuel cs

/-- Global, line-anchored removal of bullet markers: at a line start,
greedy whitespace, one bullet character, and at least one whitespace
character, removed.  The flag tracks whether the current scan position is
anchored at a line start. -/
def replaceBullets : Nat → Bool → List Char → List Char
  | 0, _, s => s
  | _, _, [] => []
  | fuel + 1, atStart, c :: cs =>
    if atStart then
      let lead := (c :: cs).takeWhile isJsSpace
      match (c :: cs).drop lead.length with
      | b :: afterBullet =>
        if b == '-' || b == '*' || b == '+' then
          let gap := afterBullet.takeWhile isJsSpace
          if gap.isEmpty then c :: replaceBullets fuel (c == '\n') cs
          else
            replaceBullets fuel (gap.getLast? == some '\n')
              (afterBullet.drop gap.length)
        else c :: replaceBullets fuel (c == '\n') cs
      | [] => c :: replaceBullets fuel (c == '\n') cs
    else c :: replaceBullets fuel (c == '\n') cs

/-- Global, line-anchored removal of numbered-list markers: at a line
start, greedy whitespace, at least one digit, a period, and at least one
whitespace character, removed. -/
def replaceNumbered : Nat → Bool → List Char → List Char
  | 0, _, s => s
  | _, _, [] => []
  | fuel + 1, atStart, c :: cs =>
    if atStart then
      let lead := (c :: cs).takeWhile isJsSpace
      let afterLead := (c :: cs).drop lead.length
      let digits := afterLead.takeWhile Char.isDigit
      match digits.isEmpty, afterLead.drop digits.length with
      | false, '.' :: afterDot =>
        let gap := afterDot.takeWhile isJsSpace
        if gap.isEmpty then c :: replaceNumbered fuel (c == '\n') cs
        else
          replaceNumbered fuel (gap.getLast? == some '\n')
            (afterDot.drop gap.length)
      | _, _ => c :: replaceNumbered fuel (c == '\n') cs
    else c :: replaceNumbered fuel (c == '\n') cs

/-- Left trim of JavaScript whitespace. -/
def trimLeftChars (s : List Char) : List Char :=
  s.dropWhile isJsSpace

/-- Right trim of JavaScript whitespace. -/
def trimRightChars (s : List Char) : List Char :=
  (s.reverse.dropWhile isJsSpace).reverse

/-- JavaScript trim: both ends. -/
def jsTrimChars (s : List Char) : List Char :=
  trimRightChars (trimLeftChars s)

/-- Replacement passes of stripMarkdown, embedded from the chat component
in source order: bold with asterisks, italic with one asterisk, bold with
underscores, italic with one underscore, inline code, fenced code blocks,
headers, links, bullet markers, numbered markers.  Each pass gets the
length of its input as fuel; every scanning step consumes at least one
input character, so the fuel never runs out. -/
def markdownPasses (text : List Char) : List Char :=
  let t1 := replaceInline ['*', '*'] text.length text
  let t2 := replaceInline ['*'] t1.length t1
  let t3 := replaceInline ['_', '_'] t2.length t2
  let t4 := replaceInline ['_'] t3.length t3
  let t5 := replaceInline ['`'] t4.length t4
  let t6 := replaceFences t5.length t5
  let t7 := replaceHeaders t6.length t6
  let t8 := replaceLinks t7.length t7
  let t9 := replaceBullets t8.length true t8
  replaceNumbered t9.length true t9

/-- stripMarkdown on character lists: the ten replacement passes followed
by trim, as in the source chain. -/
def stripMarkdownChars (text : List Char) : List Char :=
  jsTrimChars (markdownPasses text)

/-- stripMarkdown on strings. -/
def stripMarkdown (s : String) : String :=
  String.mk (stripMarkdownChars s.data)

/-- JavaScript trim on strings. -/
def jsTrim (s : String) : String :=
  String.mk (jsTrimChars s.data)

/-- Dropping a prefix by a predicate is idempotent. -/
theorem dropWhile_self_idem {α : Type} (p : α → Bool) (l : List α) :
    (l.dropWhile p).dropWhile p = l.dropWhile p := by
  induction l with
  | nil => rfl
  | cons a t ih =>
    by_cases h : p a = true
    · simp [List.dropWhile_cons, h, ih]
    · simp [List.dropWhile_cons, h]

/-- Dropping a prefix by a predicate never lengthens a list. -/
theorem length_dropWhile_le' {α : Type} (p : α → Bool) (l : List α) :
    (l.dropWhile p).length ≤ l.length := by
  induction l with
  | nil => exact Nat.le_refl 0
  | cons a t ih =>
    by_cases h : p a = true
    · simp only [List.dropWhile_cons, h, if_pos]
      exact Nat.le_succ_of_le ih
    · simp [List.dropWhile_cons, h]

/-- List fixed by dropWhile and nonempty: its head fails the predicate. -/
theorem head_false_of_dropWhile_fix {α : Type} (p : α → Bool) (a : α)
    (t : List α) (h : (a :: t).dropWhile p = a :: t) : p a = false := by
  by_cases ha : p a = true
  · exfalso
    rw [List.dropWhile_cons, if_pos ha] at h
    have hlen := congrArg List.length h
    have hle := length_dropWhile_le' p t
    simp at hlen
    omega
  · simpa using ha

/-- Right trim is idempotent. -/
theorem trimRightChars_idem (l : List Char) :
    trimRightChars (trimRightChars l) = trimRightChars l := by
  simp [trimRightChars, List.reverse_reverse, dropWhile_self_idem]

/-- Left trim fixes the result of right trim of an already left-trimmed
list. -/
theorem trimLeft_of_trimRight (l : List Char)
    (h : trimLeftChars l = l) :
    trimLeftChars (trimRightChars l) = trimRightChars l := by
  have hsplit : l.reverse.takeWhile isJsSpace ++ l.reverse.dropWhile isJsSpace
      = l.reverse := List.takeWhile_append_dropWhile isJsSpace l.reverse
  obtain ⟨rest, hl⟩ : ∃ rest, l = trimRightChars l ++ rest :=
    ⟨(l.reverse.takeWhile isJsSpace).reverse, by
      rw [trimRightChars, ← List.reverse_append, hsplit, List.reverse_reverse]⟩
  cases hr : trimRightChars l with
  | nil => simp [trimLeftChars]
  | cons a t =>
    rw [hr] at hl
    rw [hl] at h
    have ha : isJsSpace a = false :=
      head_false_of_dropWhile_fix isJsSpace a (t ++ rest) h
    simp [trimLeftChars, List.dropWhile_cons, ha]

/-- JavaScript trim is idempotent on character lists. -/
theorem jsTrimChars_idem (l : List Char) :
    jsTrimChars (jsTrimChars l) = jsTrimChars l := by
  unfold jsTrimChars
  rw [trimLeft_of_trimRight (trimLeftChars l)
    (dropWhile_self_idem isJsSpace l)]
  exact trimRightChars_idem _

/-- Underlying character list of a packed string. -/
theorem data_mk (l : List Char) : (String.mk l).data = l := rfl

/-- C10: the output of stripMarkdown is already trimmed; trimming it again
changes nothing, so it never carries leading or trailing whitespace. -/
theorem stripMarkdown_trimmed (s : String) :
    jsTrim (stripMarkdown s) = stripMarkdown s := by
  simp only [jsTrim, stripMarkdown, stripMarkdownChars, data_mk]
  exact congrArg String.mk (jsTrimChars_idem (markdownPasses s.data))

end FinanceCopilot
